import Mathlib

/-!
Verification of the desktop automation bridge (Rust sources under
`apps/desktop/src-tauri/src`): the shell policy gate and command executor
(`skills/shell.rs`), the shell route handler (`bridge.rs`), the autopilot
coordinate mapping and key combos (`autopilot/input.rs`), the screen-capture
dimensioning (`autopilot/screen.rs`) and the main-queue dispatcher
(`macos_main_queue.rs`).

Modelling conventions.  A Rust `String` is its UTF-8 byte sequence
(`List Nat`) wherever the code works with byte lengths and byte slices, and a
`List Char` where it works with characters (key names).  Calls into the
operating system (subprocess spawn, monitor enumeration, JPEG encoding) are
environment parameters.  A Rust panic is `none` of an `Option`.  The `f32`
arithmetic of the coordinate mapping and the capture scaling is modelled
exactly over `ℚ`: every operation rounds its exact rational result to the
nearest IEEE-754 binary32 value (24-bit significand, ties to even), which is
the semantics of `f32` in the normal range reached by these integer-derived
computations.  Rust `to_lowercase`/`to_uppercase` are modelled on the ASCII
range: every pattern in the rule tables and every special key name is ASCII.
-/

namespace Astra

/-- UTF-8 encoding of one character (a Rust `char`). -/
def utf8EncodeChar (c : Char) : List Nat :=
  let n := c.toNat
  if n < 0x80 then [n]
  else if n < 0x800 then [0xC0 + n / 0x40, 0x80 + n % 0x40]
  else if n < 0x10000 then [0xE0 + n / 0x1000, 0x80 + n / 0x40 % 0x40, 0x80 + n % 0x40]
  else [0xF0 + n / 0x40000, 0x80 + n / 0x1000 % 0x40, 0x80 + n / 0x40 % 0x40, 0x80 + n % 0x40]

/-- The UTF-8 bytes of a string: the representation of a Rust `String`. -/
def strBytes (s : String) : List Nat :=
  (s.data.map utf8EncodeChar).flatten

/-- Rust `str::to_lowercase` on one byte, ASCII range. -/
def toLowerByte (b : Nat) : Nat := if 0x41 ≤ b ∧ b ≤ 0x5A then b + 0x20 else b

/-- Rust `str::to_lowercase` of a string, ASCII range (multi-byte characters
use bytes `≥ 0x80` only, so they never collide with the ASCII patterns). -/
def lowerBytes (s : List Nat) : List Nat := s.map toLowerByte

/-- `needle` occurs at the start of `hay`. -/
def matchesAt : List Nat → List Nat → Bool
  | _, [] => true
  | [], _ :: _ => false
  | a :: hay, b :: needle => a == b && matchesAt hay needle

/-- Rust `str::contains` with a literal `&str` pattern: substring search. -/
def strContains (hay needle : List Nat) : Bool :=
  match hay with
  | [] => matchesAt [] needle
  | _ :: rest => matchesAt hay needle || strContains rest needle

/-- `BLOCKED_PATTERNS` of `skills/shell.rs`, in source order.  They are
literal substrings for `contains` (the two `curl`/`wget` entries are stored
with their regex punctuation and matched literally, exactly as the code
does). -/
def BLOCKED_PATTERNS : List (List Nat) :=
  [strBytes "rm -rf /",
   strBytes "rm -rf /*",
   strBytes "rm -rf ~",
   strBytes "rm -rf $HOME",
   strBytes ":()\x7b:|:&\x7d;:",
   strBytes "mkfs",
   strBytes "dd if=",
   strBytes "> /dev/sd",
   strBytes "chmod -R 777 /",
   strBytes "sudo rm",
   strBytes "sudo mkfs",
   strBytes "sudo dd",
   strBytes "nc -l",
   strBytes "nmap",
   strBytes "curl.*|.*sh",
   strBytes "wget.*|.*sh",
   strBytes "csrutil disable",
   strBytes "SIP"]

/-- `WARN_PATTERNS` of `skills/shell.rs`, in source order. -/
def WARN_PATTERNS : List (List Nat) :=
  [strBytes "sudo",
   strBytes "rm -rf",
   strBytes "chmod",
   strBytes "chown",
   strBytes "kill -9",
   strBytes "pkill",
   strBytes "shutdown",
   strBytes "reboot"]

/-- `BashExecutor` state: the optional session working directory. -/
structure BashExecutor where
  working_dir : Option (List Nat)
deriving DecidableEq

/-- `BashExecutor::new`. -/
def BashExecutor.new : BashExecutor := ⟨none⟩

/-- The first pattern of `patterns`, in list order, contained
case-insensitively in `command` (the shared loop shape of `is_blocked` and
`has_warning`). -/
def firstContained (command : List Nat) : List (List Nat) → Option (List Nat)
  | [] => none
  | p :: rest =>
    if strContains (lowerBytes command) (lowerBytes p) then some p
    else firstContained command rest

/-- `BashExecutor::is_blocked`: the reason for the first blocked pattern the
lowercased command contains, if any. -/
def is_blocked (_self : BashExecutor) (command : List Nat) : Option (List Nat) :=
  (firstContained command BLOCKED_PATTERNS).map
    (fun p => strBytes "Команда содержит запрещённый шаблон: " ++ p)

/-- `BashExecutor::has_warning`. -/
def has_warning (_self : BashExecutor) (command : List Nat) : Option (List Nat) :=
  (firstContained command WARN_PATTERNS).map
    (fun p => strBytes "Внимание: команда использует " ++ p)

/-- stdout truncation budget of `BashExecutor::execute`. -/
def STDOUT_BUDGET : Nat := 5000

/-- stderr truncation budget of `BashExecutor::execute`. -/
def STDERR_BUDGET : Nat := 2000

/-- A UTF-8 continuation byte. -/
def isContByte (b : Nat) : Bool := 0x80 ≤ b && b < 0xC0

/-- Rust `str::is_char_boundary` at index `i` of the byte sequence `s`. -/
def isCharBoundaryAt (s : List Nat) (i : Nat) : Bool :=
  if i < s.length then !isContByte (s.getD i 0) else i == s.length

/-- The marker `format!("...\n[усечено, всего {} символов]", s.len())`
appended by `truncate_output` (the braces stand for the interpolated
original length). -/
def truncMarker (n : Nat) : List Nat :=
  strBytes "...\n[усечено, всего " ++ strBytes (toString n) ++ strBytes " символов]"

/-- `truncate_output` of `skills/shell.rs`.  `s.len()` counts bytes and
`&s[..max_chars]` slices bytes; when `max_chars` is not a character boundary
the Rust slice panics, which is `none` here. -/
def truncate_output (s : List Nat) (max_chars : Nat) : Option (List Nat) :=
  if s.length ≤ max_chars then some s
  else if isCharBoundaryAt s max_chars then
    some (s.take max_chars ++ truncMarker s.length)
  else none

/-- What the subprocess layer hands back for one spawn: the two captured
streams, already decoded as `String::from_utf8_lossy` does, and
`status.code()` (`none` when the process was killed by a signal). -/
structure SubprocessResult where
  stdout : List Nat
  stderr : List Nat
  code : Option Int
deriving DecidableEq

/-- The operating-system boundary behind
`Command::new("bash").arg("-c").arg(command)…output()`: from the optional
working directory and the command text, either a launch error or the captured
output. -/
def Subprocess : Type := Option (List Nat) → List Nat → Except (List Nat) SubprocessResult

/-- `BashError` of `skills/shell.rs`. -/
inductive BashError where
  | Blocked (reason : List Nat)
  | Execution (msg : List Nat)
deriving DecidableEq

/-- `BashOutput` of `skills/shell.rs`. -/
structure BashOutput where
  stdout : List Nat
  stderr : List Nat
  exit_code : Int
deriving DecidableEq

/-- Observable outcome of `BashExecutor::execute`: the commands handed to the
subprocess layer (in order), and the returned value — `none` when a byte-slice
panic inside `truncate_output` aborts the call. -/
structure ExecOutcome where
  spawned : List (List Nat)
  result : Option (Except BashError BashOutput)

/-- `BashExecutor::execute` over the subprocess environment `os`.  The
`has_warning` branch only prints, so it does not appear in the outcome. -/
def execute (os : Subprocess) (self : BashExecutor) (command : List Nat) : ExecOutcome :=
  match is_blocked self command with
  | some reason => ⟨[], some (Except.error (BashError.Blocked reason))⟩
  | none =>
    match os self.working_dir command with
    | Except.error e => ⟨[command], some (Except.error (BashError.Execution e))⟩
    | Except.ok out =>
      match truncate_output out.stdout STDOUT_BUDGET,
            truncate_output out.stderr STDERR_BUDGET with
      | some so, some se => ⟨[command], some (Except.ok ⟨so, se, out.code.getD (-1)⟩)⟩
      | _, _ => ⟨[command], none⟩

/-- `BashOutput::to_string`: the composed display string. -/
def BashOutput.to_string (o : BashOutput) : List Nat :=
  let r1 : List Nat := if o.stdout.isEmpty then [] else o.stdout
  let r2 : List Nat :=
    if o.stderr.isEmpty then r1
    else (if r1.isEmpty then r1 else r1 ++ strBytes "\n") ++ strBytes "ошибка: " ++ o.stderr
  let r3 : List Nat :=
    if o.exit_code == 0 then r2
    else strBytes "код возврата: " ++ strBytes (toString o.exit_code) ++ strBytes "\n" ++ r2
  if r3.isEmpty then strBytes "нет вывода" else r3

/-- An HTTP response of the bridge: status code and body bytes. -/
structure HttpResponse where
  status : Nat
  body : List Nat
deriving DecidableEq

/-- `ShellRequest` of `bridge.rs`. -/
structure ShellRequest where
  command : List Nat

/-- One hexadecimal digit, lowercase. -/
def hexNibble (n : Nat) : Nat := if n < 10 then 0x30 + n else 0x57 + n

/-- serde_json escaping of one byte inside a JSON string. -/
def jsonEscapeByte (b : Nat) : List Nat :=
  if b == 0x22 then strBytes "\\\""
  else if b == 0x5C then strBytes "\\\\"
  else if b == 0x08 then strBytes "\\b"
  else if b == 0x0C then strBytes "\\f"
  else if b == 0x0A then strBytes "\\n"
  else if b == 0x0D then strBytes "\\r"
  else if b == 0x09 then strBytes "\\t"
  else if b < 0x20 then strBytes "\\u00" ++ [hexNibble (b / 16), hexNibble (b % 16)]
  else [b]

/-- `serde_json::to_string(&ShellResponse { output })`. -/
def shellResponseJson (output : List Nat) : List Nat :=
  strBytes "\x7b\"output\":\"" ++ (output.map jsonEscapeByte).flatten ++ strBytes "\"\x7d"

/-- `handle_shell_execute` of `bridge.rs`, after serde_json has parsed the
body (`parsed = none` is a decode failure).  The second component records the
subprocess spawns; `none` overall is a propagated panic.  The source pattern
`if let Ok(out) = output { … 200 … }` falls through to the 503
`"НЕДОСТУПНО"` response on any `Err`. -/
def handle_shell_execute (os : Subprocess) (parsed : Option ShellRequest) :
    Option (HttpResponse × List (List Nat)) :=
  match parsed with
  | none => some (⟨400, strBytes "некорректный запрос"⟩, [])
  | some req =>
    let executor := BashExecutor.new
    let out := execute os executor req.command
    match out.result with
    | some (Except.ok o) => some (⟨200, shellResponseJson (BashOutput.to_string o)⟩, out.spawned)
    | some (Except.error _) => some (⟨503, strBytes "НЕДОСТУПНО"⟩, out.spawned)
    | none => none

/-- The `enigo::Key` values `map_key` can produce. -/
inductive Key where
  | Meta | Control | Alt | Shift | Return | Tab | Escape | Backspace | Delete | Space
  | UpArrow | DownArrow | LeftArrow | RightArrow
  | Unicode (c : Char)
deriving DecidableEq

/-- The `enigo::Direction` values used by `press_keys`. -/
inductive Direction where
  | Press | Click | Release
deriving DecidableEq

/-- One `enigo.key(key, direction)` call. -/
structure KeyEvent where
  key : Key
  direction : Direction
deriving DecidableEq

/-- Rust `str::to_uppercase` on one character, ASCII range. -/
def toUpperChar (c : Char) : Char :=
  if 'a' ≤ c ∧ c ≤ 'z' then Char.ofNat (c.toNat - 0x20) else c

/-- Rust `str::to_uppercase`, ASCII range (all special key names are ASCII). -/
def toUpperStr (s : List Char) : List Char := s.map toUpperChar

/-- Rust `str::len`: the UTF-8 byte length. -/
def strLen (s : List Char) : Nat := (s.map (fun c => (utf8EncodeChar c).length)).sum

/-- The match of `is_modifier` on the uppercased key name. -/
def isModifierGo (u : List Char) : Bool :=
  u == "CMD".data || u == "COMMAND".data || u == "META".data || u == "CTRL".data ||
    u == "CONTROL".data || u == "ALT".data || u == "OPTION".data || u == "SHIFT".data

/-- `is_modifier` of `autopilot/input.rs`. -/
def is_modifier (key : List Char) : Bool := isModifierGo (toUpperStr key)

/-- The match of `map_key` on the uppercased name `u`, with the catch-all arm
on the original `key`. -/
def mapKeyGo (u : List Char) (key : List Char) : Option Key :=
  if u == "CMD".data || u == "COMMAND".data || u == "META".data then some Key.Meta
  else if u == "CTRL".data || u == "CONTROL".data then some Key.Control
  else if u == "ALT".data || u == "OPTION".data then some Key.Alt
  else if u == "SHIFT".data then some Key.Shift
  else if u == "ENTER".data || u == "RETURN".data then some Key.Return
  else if u == "TAB".data then some Key.Tab
  else if u == "ESC".data || u == "ESCAPE".data then some Key.Escape
  else if u == "BACKSPACE".data then some Key.Backspace
  else if u == "DELETE".data then some Key.Delete
  else if u == "SPACE".data then some Key.Space
  else if u == "UP".data || u == "ARROW_UP".data then some Key.UpArrow
  else if u == "DOWN".data || u == "ARROW_DOWN".data then some Key.DownArrow
  else if u == "LEFT".data || u == "ARROW_LEFT".data then some Key.LeftArrow
  else if u == "RIGHT".data || u == "ARROW_RIGHT".data then some Key.RightArrow
  else if strLen key == 1 then (key.head?).map Key.Unicode
  else none

/-- `map_key` of `autopilot/input.rs`: special names by uppercased form, then
any single-byte name as a literal `Key::Unicode` of its first character. -/
def map_key (key : List Char) : Option Key := mapKeyGo (toUpperStr key) key

/-- One iteration of the classification loop of `press_keys`: a recognized
modifier is appended to the modifier vector, a recognized non-modifier
overwrites the `main_key` slot, an unrecognized name is skipped. -/
def keyStep (acc : List Key × Option Key) (key : List Char) : List Key × Option Key :=
  match map_key key with
  | some mapped => if is_modifier key then (acc.1 ++ [mapped], acc.2) else (acc.1, some mapped)
  | none => acc

/-- `AutopilotExecutor::press_keys`: the sequence of `enigo.key` events the
loop emits (presses in vector order, one click of the main key if any, then
releases in reverse vector order). -/
def press_keys (keys : List (List Char)) : List KeyEvent :=
  if keys.isEmpty then []
  else
    let acc := keys.foldl keyStep ([], none)
    acc.1.map (fun m => ⟨m, Direction.Press⟩) ++
      (match acc.2 with
       | some k => [⟨k, Direction.Click⟩]
       | none => []) ++
      acc.1.reverse.map (fun m => ⟨m, Direction.Release⟩)

/-- The recognized modifiers of a key-name list, in list order. -/
def comboModifiers (keys : List (List Char)) : List Key :=
  (keys.filter (fun k => is_modifier k)).filterMap map_key

/-- The last recognized non-modifier of a key-name list, if any. -/
def comboMain (keys : List (List Char)) : Option Key :=
  (keys.filterMap (fun k => if is_modifier k then none else map_key k)).getLast?

/-- The event sequence the specification describes: presses in order, at most
one click, releases in reverse order. -/
def comboEvents (mods : List Key) (main : Option Key) : List KeyEvent :=
  mods.map (fun m => ⟨m, Direction.Press⟩) ++
    (match main with
     | some k => [⟨k, Direction.Click⟩]
     | none => []) ++
    mods.reverse.map (fun m => ⟨m, Direction.Release⟩)

/-- Arithmetic on `ℚ` below is written with the kernel-reducible primitives
`Rat.divInt`, `Rat.blt`, `Rat.floor` and integer operations, so that every
concrete instance evaluates by `decide`; the lemmas `qOfInt_eq`, `qMul_eq`
and `qDiv_eq` identify them with the ordinary field operations. -/
def qOfInt (z : ℤ) : ℚ := Rat.divInt z 1

/-- Exact product of two rationals. -/
def qMul (a b : ℚ) : ℚ := Rat.divInt (a.num * b.num) ((a.den : ℤ) * (b.den : ℤ))

/-- Exact quotient of two rationals. -/
def qDiv (a b : ℚ) : ℚ := Rat.divInt (a.num * (b.den : ℤ)) ((a.den : ℤ) * b.num)

/-- Exact negation of a rational. -/
def qNeg (q : ℚ) : ℚ := Rat.divInt (-q.num) (q.den : ℤ)

/-- `Nat.log2` with explicit fuel, so it reduces in the kernel. -/
def natLog2Fuel : Nat → Nat → Nat
  | 0, _ => 0
  | fuel + 1, n => if 2 ≤ n then natLog2Fuel fuel (n / 2) + 1 else 0

/-- For `n ≥ 1`: the `e` with `2^e ≤ n < 2^(e+1)`. -/
def natLog2 (n : Nat) : Nat := natLog2Fuel n n

/-- The rational `2^k`, any integer `k`. -/
def pow2 (k : ℤ) : ℚ :=
  if 0 ≤ k then Rat.divInt ((2 : ℤ) ^ k.toNat) 1 else Rat.divInt 1 ((2 : ℤ) ^ (-k).toNat)

/-- Round a rational `q = n/d` (with `d > 0`, as `Rat` keeps it) to an
integer: nearest, ties to even.  `2(n - ⌊q⌋d)` against `d` compares the
fractional part against `1/2`. -/
def roundNE (q : ℚ) : ℤ :=
  let n := q.num
  let d : ℤ := (q.den : ℤ)
  let fl := Int.fdiv n d
  let twice := 2 * (n - fl * d)
  if twice < d then fl
  else if d < twice then fl + 1
  else if fl % 2 == 0 then fl else fl + 1

/-- For positive `q`, the exponent `e` with `2^e ≤ q < 2^(e+1)`: the log₂
estimate from numerator and denominator, corrected by one where needed. -/
def qExp (q : ℚ) : ℤ :=
  let e0 : ℤ := (natLog2 q.num.natAbs : ℤ) - (natLog2 q.den : ℤ)
  if Rat.blt q (pow2 e0) then e0 - 1 else e0

/-- Round a positive rational to the nearest IEEE-754 binary32 value: 24-bit
significand, round to nearest, ties to even (the normal range, which covers
every value these integer-derived computations reach). -/
def f32RoundPos (q : ℚ) : ℚ :=
  let k : ℤ := 23 - qExp q
  qMul (qOfInt (roundNE (qMul q (pow2 k)))) (pow2 (-k))

/-- Rounding of an exact rational result to binary32, all signs: the `f32`
value an IEEE operation returns when its exact result is `q`. -/
def f32Round (q : ℚ) : ℚ :=
  if q.num = 0 then 0
  else if q.num < 0 then qNeg (f32RoundPos (qNeg q))
  else f32RoundPos q

/-- Rust `f32::round`: nearest integer, ties away from zero —
`⌊q + 1/2⌋ = ⌊(2n+d)/(2d)⌋` for `q = n/d ≥ 0`, mirrored for negative `q`. -/
def rustRound (q : ℚ) : ℤ :=
  if q.num < 0 then - Int.fdiv (2 * (-q.num) + (q.den : ℤ)) (2 * (q.den : ℤ))
  else Int.fdiv (2 * q.num + (q.den : ℤ)) (2 * (q.den : ℤ))

/-- Rust saturating cast `as i32` of an integral float value. -/
def i32sat (z : ℤ) : ℤ :=
  if z < -(2 ^ 31) then -(2 ^ 31) else if 2 ^ 31 - 1 < z then 2 ^ 31 - 1 else z

/-- `AutopilotExecutor` state: the physical screen size resolved at
construction from the first monitor. -/
structure AutopilotExecutor where
  screen_width : Nat
  screen_height : Nat

/-- `AutopilotExecutor::map_coords`, the `f32` steps modelled exactly: each
conversion, the division and the multiplication round to binary32, then
`.round()` rounds ties away from zero and `as i32` saturates. -/
def map_coords (self : AutopilotExecutor) (x y : ℤ) (image_width image_height : Nat) :
    ℤ × ℤ :=
  if image_width == 0 || image_height == 0 then (x, y)
  else
    let fx := f32Round (qDiv (f32Round (qOfInt x)) (f32Round (qOfInt image_width)))
    let sx := f32Round (qMul fx (f32Round (qOfInt self.screen_width)))
    let fy := f32Round (qDiv (f32Round (qOfInt y)) (f32Round (qOfInt image_height)))
    let sy := f32Round (qMul fy (f32Round (qOfInt self.screen_height)))
    (i32sat (rustRound sx), i32sat (rustRound sy))

/-- `ScreenCapture` of `autopilot/screen.rs`. -/
structure ScreenCapture where
  image_base64 : List Char
  width : Nat
  height : Nat
  screen_width : Nat
  screen_height : Nat

/-- One monitor as `capture_screen` consumes it: fallible width, height and
frame capture (the frame contents play no role in the dimension claims). -/
structure MonitorDev where
  widthResult : Except (List Nat) Nat
  heightResult : Except (List Nat) Nat
  captureResult : Except (List Nat) Unit

/-- The display/encoder environment of `capture_screen`: `Monitor::all()` and
the JPEG encoding of the resized frame, `(width, height, quality) ↦ bytes`. -/
structure ScreenEnv where
  monitors : Except (List Nat) (List MonitorDev)
  encode : Nat → Nat → Nat → Except (List Nat) (List Nat)

/-- The standard base64 alphabet. -/
def base64Alphabet : List Char :=
  "ABCDEFGHIJKLMNOPQRSTUVWXYZabcdefghijklmnopqrstuvwxyz0123456789+/".data

/-- One base64 digit. -/
def b64c (n : Nat) : Char := base64Alphabet.getD n 'A'

/-- Standard base64 with padding (`BASE64.encode`). -/
def base64Encode : List Nat → List Char
  | [] => []
  | [a] => [b64c (a / 4), b64c (a % 4 * 16), '=', '=']
  | [a, b] => [b64c (a / 4), b64c (a % 4 * 16 + b / 16), b64c (b % 16 * 4), '=']
  | a :: b :: c :: rest =>
    [b64c (a / 4), b64c (a % 4 * 16 + b / 16), b64c (b % 16 * 4 + c / 64), b64c (c % 64)] ++
      base64Encode rest

/-- Rust truncating saturating cast `as u32` of an `f32` value. -/
def u32OfF32 (q : ℚ) : Nat :=
  if q.num < 0 then 0
  else if Rat.floor q ≤ 2 ^ 32 - 1 then Int.toNat (Rat.floor q) else 2 ^ 32 - 1

/-- The `target_height` computation of `capture_screen`:
`((screen_height as f32) * (target_width as f32 / screen_width as f32)) as u32`
with the `f32` steps modelled exactly.  A zero screen width makes the inner
quotient `0.0 / 0.0 = NaN` (the target width is then also zero), and casting
NaN `as u32` yields 0. -/
def target_height (screen_height target_width screen_width : Nat) : Nat :=
  if screen_width == 0 then 0
  else u32OfF32 (f32Round (qMul (f32Round (qOfInt screen_height))
    (f32Round (qDiv (f32Round (qOfInt target_width)) (f32Round (qOfInt screen_width))))))

/-- `capture_screen` of `autopilot/screen.rs` over the display/encoder
environment, step for step. -/
def capture_screen (env : ScreenEnv) (max_width : Nat) (quality : Nat) :
    Except (List Nat) ScreenCapture :=
  match env.monitors with
  | Except.error e => Except.error e
  | Except.ok ms =>
    match ms.head? with
    | none => Except.error (strBytes "Монитор не найден")
    | some monitor =>
      match monitor.widthResult with
      | Except.error e => Except.error e
      | Except.ok screen_width =>
        match monitor.heightResult with
        | Except.error e => Except.error e
        | Except.ok screen_height =>
          match monitor.captureResult with
          | Except.error e => Except.error e
          | Except.ok _ =>
            let target_width := if screen_width > max_width then max_width else screen_width
            let th := target_height screen_height target_width screen_width
            match env.encode target_width th quality with
            | Except.error e => Except.error e
            | Except.ok buffer =>
              Except.ok ⟨base64Encode buffer, target_width, th, screen_width, screen_height⟩

/-- A unit of work handed to the dispatcher: its one execution either returns
a value or panics with a message. -/
inductive Work (T : Type) where
  | ret (t : T)
  | panicked (msg : List Nat)

/-- Modelled from the `std::panic::catch_unwind` contract the source relies
on (the library is external to the repository): a normal return is `Ok`, a
panic is caught and surfaced as `Err`. -/
def catchUnwind {T : Type} : Work T → Except (List Nat) T
  | Work.ret t => Except.ok t
  | Work.panicked m => Except.error m

/-- One `catch_unwind(AssertUnwindSafe(f))` call site, threaded through an
execution counter: each call runs the closure exactly once. -/
def catchUnwindCounted {T : Type} (f : Work T) (n : Nat) : Except (List Nat) T × Nat :=
  (catchUnwind f, n + 1)

/-- `imp::sync` of `macos_main_queue.rs` on macOS.  On the main thread the
closure runs inline under `catch_unwind`.  Off it, `dispatch_sync_f`
(modelled from the spec: synchronous dispatch invokes the trampoline exactly
once on the main queue and returns after it completes) has the trampoline
take the closure out of the context, run it under `catch_unwind`, and write
the result the blocked caller then reads; the dead `expect` branch of the
already-taken closure is the error below. -/
def sync_macos {T : Type} (is_main_thread : Bool) (f : Work T) (n : Nat) :
    Except (List Nat) T × Nat :=
  if is_main_thread then catchUnwindCounted f n
  else
    let ctx : Option (Work T) := some f
    match ctx with
    | some g => catchUnwindCounted g n
    | none => (Except.error (strBytes "macos_main_queue: closure already taken"), n)

/-- `imp::sync` of `macos_main_queue.rs` on every other platform: direct
invocation under `catch_unwind`. -/
def sync_fallback {T : Type} (f : Work T) (n : Nat) : Except (List Nat) T × Nat :=
  catchUnwindCounted f n

/-! ### The pattern loop, characterised -/

theorem firstContained_spec (command : List Nat) (ps : List (List Nat))
    (h : ∃ p ∈ ps, strContains (lowerBytes command) (lowerBytes p) = true) :
    ∃ pre p suf, ps = pre ++ p :: suf ∧
      (∀ q ∈ pre, strContains (lowerBytes command) (lowerBytes q) = false) ∧
      strContains (lowerBytes command) (lowerBytes p) = true ∧
      firstContained command ps = some p := by
  induction ps with
  | nil =>
    obtain ⟨p, hp, _⟩ := h
    exact absurd hp (List.not_mem_nil p)
  | cons a rest ih =>
    cases ha : strContains (lowerBytes command) (lowerBytes a) with
    | true =>
      refine ⟨[], a, rest, rfl, ?_, ha, by simp [firstContained, ha]⟩
      intro q hq
      exact absurd hq (List.not_mem_nil q)
    | false =>
      have hrest : ∃ p ∈ rest, strContains (lowerBytes command) (lowerBytes p) = true := by
        obtain ⟨p, hp, hc⟩ := h
        rcases List.mem_cons.mp hp with rfl | hp'
        · rw [ha] at hc; exact absurd hc (by simp)
        · exact ⟨p, hp', hc⟩
      obtain ⟨pre, p, suf, hps, hpre, hp, hfc⟩ := ih hrest
      refine ⟨a :: pre, p, suf, by rw [hps, List.cons_append], ?_, hp,
        by simp [firstContained, ha, hfc]⟩
      intro q hq
      rcases List.mem_cons.mp hq with rfl | hq'
      · exact ha
      · exact hpre q hq'

/-- C1.  For every command string, if the lowercased command contains the
lowercased form of any blocked pattern as a substring, classification is
`Blocked` with the first matching pattern (in list order) in the reason, and
`execute` returns the `Blocked` error with an empty spawn trace — the
subprocess layer is never invoked, whatever the subprocess environment.
Classification is deterministic and pure: `is_blocked` is a function of the
command text alone (the executor state is quantified over). -/
theorem C1_blocked_policy (cmd : List Nat)
    (h : ∃ p ∈ BLOCKED_PATTERNS, strContains (lowerBytes cmd) (lowerBytes p) = true) :
    ∃ pre p suf,
      BLOCKED_PATTERNS = pre ++ p :: suf ∧
      (∀ q ∈ pre, strContains (lowerBytes cmd) (lowerBytes q) = false) ∧
      strContains (lowerBytes cmd) (lowerBytes p) = true ∧
      (∀ ex : BashExecutor,
        is_blocked ex cmd = some (strBytes "Команда содержит запрещённый шаблон: " ++ p) ∧
        ∀ os : Subprocess,
          execute os ex cmd =
            ⟨[], some (Except.error (BashError.Blocked
              (strBytes "Команда содержит запрещённый шаблон: " ++ p)))⟩) := by
  obtain ⟨pre, p, suf, hps, hpre, hp, hfc⟩ := firstContained_spec cmd BLOCKED_PATTERNS h
  refine ⟨pre, p, suf, hps, hpre, hp, fun ex => ⟨?_, fun os => ?_⟩⟩
  · simp [is_blocked, hfc]
  · simp [execute, is_blocked, hfc]

/-- C1, witness: `"rm -rf /data"` contains the first blocked pattern. -/
theorem C1_blocked_policy_witness :
    ∃ pre p suf,
      BLOCKED_PATTERNS = pre ++ p :: suf ∧
      (∀ q ∈ pre, strContains (lowerBytes (strBytes "rm -rf /data")) (lowerBytes q) = false) ∧
      strContains (lowerBytes (strBytes "rm -rf /data")) (lowerBytes p) = true ∧
      (∀ ex : BashExecutor,
        is_blocked ex (strBytes "rm -rf /data") =
          some (strBytes "Команда содержит запрещённый шаблон: " ++ p) ∧
        ∀ os : Subprocess,
          execute os ex (strBytes "rm -rf /data") =
            ⟨[], some (Except.error (BashError.Blocked
              (strBytes "Команда содержит запрещённый шаблон: " ++ p)))⟩) :=
  C1_blocked_policy (strBytes "rm -rf /data") ⟨strBytes "rm -rf /", by decide, by decide⟩

/-- C2.  Evaluation of the shell-execute handler at the body
`{"command":"rm -rf /"}`: the command is blocked, no subprocess is spawned
(the spawn trace is empty, for every subprocess environment), but the handler
discards the `Blocked` reason and answers with status 503 and the literal
capability-unavailable payload `"НЕДОСТУПНО"` — not a policy-violation
response stating the reason.  This records the divergence between the code
and the claim. -/
theorem C2_shell_execute_blocked_response (os : Subprocess) :
    handle_shell_execute os (some ⟨strBytes "rm -rf /"⟩) =
      some (⟨503, strBytes "НЕДОСТУПНО"⟩, []) := by
  have hb : is_blocked BashExecutor.new (strBytes "rm -rf /") =
      some (strBytes "Команда содержит запрещённый шаблон: " ++ strBytes "rm -rf /") := by
    decide
  simp [handle_shell_execute, execute, hb]

/-- C6.  Truncation is the identity on a string within budget (no marker);
when it truncates and returns, the result is the first `n` bytes followed by
the marker stating the original length; and the stdout budget (5000) is
strictly greater than the stderr budget (2000). -/
theorem C6_truncation_behavior (s : List Nat) (n : Nat) :
    (s.length ≤ n → truncate_output s n = some s) ∧
    (∀ r, n < s.length → truncate_output s n = some r →
      r = s.take n ++ truncMarker s.length) ∧
    STDERR_BUDGET < STDOUT_BUDGET ∧ STDOUT_BUDGET = 5000 ∧ STDERR_BUDGET = 2000 := by
  refine ⟨fun h => by simp [truncate_output, h], fun r h hr => ?_, by decide, rfl, rfl⟩
  rw [truncate_output, if_neg (by omega)] at hr
  split at hr
  · exact (Option.some_inj.mp hr).symm
  · exact absurd hr (by simp)

/-- C6, witness: a short string passes through unchanged, a long one gains
the marker with its original length. -/
theorem C6_truncation_behavior_witness :
    truncate_output (strBytes "hi") 5 = some (strBytes "hi") ∧
    truncate_output (strBytes "hello") 3 = some (strBytes "hel" ++ truncMarker 5) := by
  have h1 := (C6_truncation_behavior (strBytes "hi") 5).1 (by decide)
  have h2 := (C6_truncation_behavior (strBytes "hello") 3).2.1
    ((strBytes "hello").take 3 ++ truncMarker (strBytes "hello").length) (by decide) (by decide)
  exact ⟨h1, by decide⟩

/-- C7 (code-bug evidence).  `truncate_output` slices the string at the byte
offset `max_chars`; on the four-byte string `"яя"` with budget 1 that offset
falls inside a character, which in the Rust source is an out-of-char-boundary
byte-slice panic (`none` in the model): the function is not total. -/
theorem C7_truncate_panics_mid_character :
    truncate_output (strBytes "яя") 1 = none := by decide

/-- C8.  The composed display string: the explicit no-output sentinel exactly
when everything is empty and the exit code is zero; stderr prefixed with the
error marker, separated from a non-empty stdout by a newline; a non-zero exit
code prepended as a leading marker naming that code. -/
theorem C8_display_composition (o : BashOutput) :
    (o.exit_code = 0 → o.stdout = [] → o.stderr = [] →
      BashOutput.to_string o = strBytes "нет вывода") ∧
    (o.exit_code = 0 → o.stderr ≠ [] →
      BashOutput.to_string o =
        (if o.stdout = [] then [] else o.stdout ++ strBytes "\n") ++
          (strBytes "ошибка: " ++ o.stderr)) ∧
    (o.exit_code ≠ 0 →
      BashOutput.to_string o =
        strBytes "код возврата: " ++ strBytes (toString o.exit_code) ++ strBytes "\n" ++
          (if o.stderr = [] then o.stdout
           else (if o.stdout = [] then [] else o.stdout ++ strBytes "\n") ++
             (strBytes "ошибка: " ++ o.stderr))) := by
  have herr : strBytes "ошибка: " ≠ [] := by decide
  have hcode : strBytes "код возврата: " ≠ [] := by decide
  refine ⟨?_, ?_, ?_⟩
  · intro h0 h1 h2
    simp [BashOutput.to_string, h0, h1, h2]
  · intro h0 h2
    by_cases h1 : o.stdout = [] <;>
      simp [BashOutput.to_string, h0, h1, h2, List.isEmpty_iff, List.append_eq_nil, herr]
  · intro h0
    have h0' : (o.exit_code == 0) = false := by simp [h0]
    by_cases h1 : o.stdout = [] <;> by_cases h2 : o.stderr = [] <;>
      simp [BashOutput.to_string, h0', h1, h2, List.isEmpty_iff, List.append_eq_nil,
        herr, hcode, List.append_assoc]

/-! ### Key combos (C9) -/

theorem is_modifier_some (k : List Char) (h : is_modifier k = true) :
    (map_key k).isSome = true := by
  rw [is_modifier, isModifierGo] at h
  simp only [Bool.or_eq_true, beq_iff_eq] at h
  rw [map_key]
  rcases h with ((((((h | h) | h) | h) | h) | h) | h) | h <;> rw [h] <;> rfl

theorem getLast?_cons_getD {α : Type} (v : α) (l : List α) :
    (v :: l).getLast? = some (l.getLast?.getD v) := by
  induction l generalizing v with
  | nil => rfl
  | cons b t ih => rw [List.getLast?_cons_cons, ih b]; simp [Option.getD]

theorem keyStep_foldl (keys : List (List Char)) (m0 : List Key) (mk0 : Option Key) :
    keys.foldl keyStep (m0, mk0) =
      (m0 ++ comboModifiers keys, (comboMain keys).elim mk0 some) := by
  induction keys generalizing m0 mk0 with
  | nil => simp [comboModifiers, comboMain, Option.elim]
  | cons a rest ih =>
    rw [List.foldl_cons]
    cases hma : map_key a with
    | none =>
      have hmod : is_modifier a = false := by
        cases hm : is_modifier a
        · rfl
        · have h2 := is_modifier_some a hm
          rw [hma] at h2
          simp at h2
      rw [show keyStep (m0, mk0) a = (m0, mk0) from by simp [keyStep, hma], ih]
      simp [comboModifiers, comboMain, List.filter_cons, List.filterMap_cons, hmod, hma]
    | some v =>
      cases hmod : is_modifier a with
      | false =>
        rw [show keyStep (m0, mk0) a = (m0, some v) from by simp [keyStep, hma, hmod], ih]
        have hfm : (if is_modifier a then none else map_key a) = some v := by
          simp [hmod, hma]
        simp only [comboModifiers, comboMain, List.filter_cons, List.filterMap_cons, hmod,
          hma, hfm, Bool.false_eq_true, if_false, getLast?_cons_getD]
        cases hcm : (rest.filterMap fun k => if is_modifier k then none else map_key k).getLast? <;>
          simp [Option.elim, Option.getD, hcm]
      | true =>
        rw [show keyStep (m0, mk0) a = (m0 ++ [v], mk0) from by simp [keyStep, hma, hmod], ih]
        have hfm : (if is_modifier a then none else map_key a) = none := by
          simp [hmod]
        simp [comboModifiers, comboMain, List.filter_cons, List.filterMap_cons, hmod, hma,
          hfm, List.append_assoc]

/-- C9.  The events `press_keys` emits are exactly: presses of the recognized
modifiers in list order, then one click of the last recognized non-modifier
if present, then releases of the modifiers in reverse order; a key name that
maps to nothing is dropped silently anywhere in the list (the action still
returns its event list); and `["SHIFT","CMD","A"]` yields press Shift, press
Cmd, click A, release Cmd, release Shift. -/
theorem C9_key_combo_order :
    (∀ keys, press_keys keys = comboEvents (comboModifiers keys) (comboMain keys)) ∧
    (∀ pre suf k, map_key k = none →
      press_keys (pre ++ k :: suf) = press_keys (pre ++ suf)) ∧
    press_keys ["SHIFT".data, "CMD".data, "A".data] =
      [⟨Key.Shift, Direction.Press⟩, ⟨Key.Meta, Direction.Press⟩,
       ⟨Key.Unicode 'A', Direction.Click⟩,
       ⟨Key.Meta, Direction.Release⟩, ⟨Key.Shift, Direction.Release⟩] := by
  have hmain : ∀ keys, press_keys keys = comboEvents (comboModifiers keys) (comboMain keys) := by
    intro keys
    cases keys with
    | nil => rfl
    | cons a rest =>
      simp only [press_keys, List.isEmpty_cons, Bool.false_eq_true, if_false,
        keyStep_foldl, List.nil_append]
      cases hcm : comboMain (a :: rest) <;> simp [comboEvents, Option.elim, hcm]
  refine ⟨hmain, fun pre suf k hk => ?_, by decide⟩
  have hmod : is_modifier k = false := by
    cases hm : is_modifier k
    · rfl
    · have h2 := is_modifier_some k hm
      rw [hk] at h2
      simp at h2
  rw [hmain, hmain]
  have h1 : comboModifiers (pre ++ k :: suf) = comboModifiers (pre ++ suf) := by
    simp [comboModifiers, List.filter_append, List.filter_cons, hmod]
  have h2 : comboMain (pre ++ k :: suf) = comboMain (pre ++ suf) := by
    have hfm : (if is_modifier k then none else map_key k) = none := by simp [hmod, hk]
    simp [comboMain, List.filterMap_append, List.filterMap_cons, hfm]
  rw [h1, h2]

/-! ### Coordinate mapping (C3) -/

theorem qOfInt_eq (z : ℤ) : qOfInt z = (z : ℚ) := by
  simp [qOfInt, Rat.divInt_eq_div]

theorem qMul_eq (a b : ℚ) : qMul a b = a * b := by
  rw [qMul, ← Rat.divInt_mul_divInt', Rat.num_divInt_den, Rat.num_divInt_den]

theorem qDiv_eq (a b : ℚ) : qDiv a b = a / b := by
  rw [qDiv]
  exact (Rat.div_def' a b).symm

/-- The exact value of the mapping pipeline is the specification formula. -/
theorem qPipe_eq (x : ℤ) (iw sw : Nat) :
    qMul (qDiv (qOfInt x) (qOfInt (iw : ℤ))) (qOfInt (sw : ℤ)) =
      (x : ℚ) / (iw : ℚ) * (sw : ℚ) := by
  rw [qMul_eq, qDiv_eq, qOfInt_eq, qOfInt_eq, qOfInt_eq]
  norm_cast

/-- C3 (amended).  With a zero image dimension the point passes through
unmapped; with positive dimensions, whenever every intermediate `f32` step is
exact (conversions, quotient and product representable in binary32), the
result is exactly `(round(x/iw*sw), round(y/ih*sh))` — rounding ties away
from zero and saturating to `i32` as the code does.  (Without the exactness
hypotheses the result is the binary32-rounded evaluation, which the
counterexample shows can differ from the exact formula.) -/
theorem C3_map_coords_exact (sw sh : Nat) (x y : ℤ) (iw ih : Nat)
    (hx : f32Round (qOfInt x) = qOfInt x)
    (hiw : f32Round (qOfInt (iw : ℤ)) = qOfInt (iw : ℤ))
    (hsw : f32Round (qOfInt (sw : ℤ)) = qOfInt (sw : ℤ))
    (hxd : f32Round (qDiv (qOfInt x) (qOfInt (iw : ℤ))) = qDiv (qOfInt x) (qOfInt (iw : ℤ)))
    (hxm : f32Round (qMul (qDiv (qOfInt x) (qOfInt (iw : ℤ))) (qOfInt (sw : ℤ))) =
      qMul (qDiv (qOfInt x) (qOfInt (iw : ℤ))) (qOfInt (sw : ℤ)))
    (hy : f32Round (qOfInt y) = qOfInt y)
    (hih : f32Round (qOfInt (ih : ℤ)) = qOfInt (ih : ℤ))
    (hsh : f32Round (qOfInt (sh : ℤ)) = qOfInt (sh : ℤ))
    (hyd : f32Round (qDiv (qOfInt y) (qOfInt (ih : ℤ))) = qDiv (qOfInt y) (qOfInt (ih : ℤ)))
    (hym : f32Round (qMul (qDiv (qOfInt y) (qOfInt (ih : ℤ))) (qOfInt (sh : ℤ))) =
      qMul (qDiv (qOfInt y) (qOfInt (ih : ℤ))) (qOfInt (sh : ℤ))) :
    (iw = 0 ∨ ih = 0 → map_coords ⟨sw, sh⟩ x y iw ih = (x, y)) ∧
    (iw ≠ 0 → ih ≠ 0 →
      map_coords ⟨sw, sh⟩ x y iw ih =
        (i32sat (rustRound ((x : ℚ) / (iw : ℚ) * (sw : ℚ))),
         i32sat (rustRound ((y : ℚ) / (ih : ℚ) * (sh : ℚ))))) := by
  constructor
  · rintro (h | h) <;> simp [map_coords, h]
  · intro h1 h2
    have hg : (iw == 0 || ih == 0) = false := by simp [h1, h2]
    simp only [map_coords, hg, Bool.false_eq_true, if_false]
    rw [hx, hiw, hxd, hsw, hxm, hy, hih, hyd, hsh, hym, qPipe_eq, qPipe_eq]

/-- C3, witness: a 1280×512 image on a 3840×2160 screen at point
`(1000, 500)`; every `f32` step is exact, and the map produces the exact
rounded formula. -/
theorem C3_map_coords_exact_witness :
    ((1280 : ℕ) = 0 ∨ (512 : ℕ) = 0 →
      map_coords ⟨3840, 2160⟩ 1000 500 1280 512 = (1000, 500)) ∧
    ((1280 : ℕ) ≠ 0 → (512 : ℕ) ≠ 0 →
      map_coords ⟨3840, 2160⟩ 1000 500 1280 512 =
        (i32sat (rustRound (((1000 : ℤ) : ℚ) / ((1280 : ℕ) : ℚ) * ((3840 : ℕ) : ℚ))),
         i32sat (rustRound (((500 : ℤ) : ℚ) / ((512 : ℕ) : ℚ) * ((2160 : ℕ) : ℚ))))) :=
  C3_map_coords_exact 3840 2160 1000 500 1280 512 (by decide) (by decide) (by decide)
    (by decide) (by decide) (by decide) (by decide) (by decide) (by decide) (by decide)

/-- C3, counterexample.  At `x = 16777217 = 2^24 + 1` (not representable in
binary32) with a 1×1 image on a 1×1 screen, the code returns 16777216 while
the claim's formula `round(x/iw*sw)` gives 16777217: the claim as stated
fails on the `f32` arithmetic. -/
theorem C3_map_coords_counterexample :
    map_coords ⟨1, 1⟩ 16777217 0 1 1 ≠
      (i32sat (rustRound (((16777217 : ℤ) : ℚ) / ((1 : ℕ) : ℚ) * ((1 : ℕ) : ℚ))),
       i32sat (rustRound (((0 : ℤ) : ℚ) / ((1 : ℕ) : ℚ) * ((1 : ℕ) : ℚ)))) := by
  rw [← qPipe_eq, ← qPipe_eq]
  decide

/-! ### Screen capture dimensions (C5) -/

/-- C5 (amended).  Whenever `capture_screen` succeeds, the encoded width is
`min(max_width, physical_width)` — in particular never larger than the
physical width — the encoded height is the `f32`-scaled, truncated
`target_height`, and the width is positive whenever both `max_width` and the
physical width are.  (A zero `max_width`, or a scale that truncates the
height to zero, produces a zero dimension if the encoder accepts the frame —
the counterexample.) -/
theorem C5_capture_dimensions (env : ScreenEnv) (max_width quality : Nat) (cap : ScreenCapture)
    (h : capture_screen env max_width quality = Except.ok cap) :
    cap.width = min max_width cap.screen_width ∧
    cap.width ≤ cap.screen_width ∧
    cap.height = target_height cap.screen_height cap.width cap.screen_width ∧
    (0 < max_width → 0 < cap.screen_width → 0 < cap.width) := by
  simp only [capture_screen] at h
  repeat' split at h
  all_goals try exact Except.noConfusion h
  all_goals
    have hc := Except.ok.inj h
  all_goals subst hc
  all_goals
    refine ⟨?_, ?_, rfl, ?_⟩ <;> (dsimp only; omega)

/-- A 1920×1080 display with an always-succeeding encoder. -/
def screenEnvHD : ScreenEnv :=
  ⟨Except.ok [⟨Except.ok 1920, Except.ok 1080, Except.ok ()⟩], fun _ _ _ => Except.ok []⟩

/-- C5, witness: a 1280-wide capture of a 1920×1080 screen is 1280×720. -/
theorem C5_capture_dimensions_witness :
    (1280 : ℕ) = min 1280 1920 ∧ (1280 : ℕ) ≤ 1920 ∧
    (720 : ℕ) = target_height 1080 1280 1920 ∧
    (0 < (1280 : ℕ) → 0 < (1920 : ℕ) → 0 < (1280 : ℕ)) :=
  C5_capture_dimensions screenEnvHD 1280 60 ⟨[], 1280, 720, 1920, 1080⟩ rfl

/-- A 3840×2160 display with an always-succeeding encoder. -/
def screenEnvUHD : ScreenEnv :=
  ⟨Except.ok [⟨Except.ok 3840, Except.ok 2160, Except.ok ()⟩], fun _ _ _ => Except.ok []⟩

/-- C5, counterexample.  With `max_width = 0` the capture dimensioning yields
a 0×0 result; if the (environment-provided, external) JPEG encoder accepts
the zero-sized frame, `capture_screen` succeeds and returns a non-positive
encoded dimension, contradicting the claim's "never a non-positive encoded
dimension". -/
theorem C5_capture_zero_dimension :
    ∃ cap, capture_screen screenEnvUHD 0 60 = Except.ok cap ∧ cap.width = 0 ∧ cap.height = 0 :=
  ⟨⟨[], 0, 0, 3840, 2160⟩, rfl, rfl, rfl⟩

/-! ### The dispatcher (C4) -/

/-- C4.  Both platform paths of `imp::sync` run the closure exactly once (the
execution counter advances by one), return `Ok` of the value on normal
return and `Err` of the captured panic on panic, and agree with each other —
the caller cannot distinguish the platforms. -/
theorem C4_dispatcher_contract :
    (∀ (T : Type) (b : Bool) (f : Work T) (n : Nat),
      sync_macos b f n = (catchUnwind f, n + 1)) ∧
    (∀ (T : Type) (f : Work T) (n : Nat), sync_fallback f n = (catchUnwind f, n + 1)) ∧
    (∀ (T : Type) (b : Bool) (f : Work T) (n : Nat), sync_macos b f n = sync_fallback f n) ∧
    (∀ (T : Type) (b : Bool) (t : T) (n : Nat),
      sync_macos b (Work.ret t) n = (Except.ok t, n + 1)) ∧
    (∀ (T : Type) (b : Bool) (m : List Nat) (n : Nat),
      sync_macos b (Work.panicked (T := T) m) n = (Except.error m, n + 1)) :=
  ⟨fun _ b _ _ => by cases b <;> rfl, fun _ _ _ => rfl,
   fun _ b _ _ => by cases b <;> rfl, fun _ b _ _ => by cases b <;> rfl,
   fun _ b _ _ => by cases b <;> rfl⟩

/-- C10.  A command that is not blocked (with a warning or not — the warning
is only printed) is handed to the subprocess layer, and the captured stdout,
stderr and exit code come back, each stream truncated past its budget. -/
theorem C10_warned_commands_execute (os : Subprocess) (ex : BashExecutor)
    (cmd w so se : List Nat) (r : SubprocessResult)
    (hb : is_blocked ex cmd = none)
    (hw : has_warning ex cmd = some w)
    (hos : os ex.working_dir cmd = Except.ok r)
    (hso : truncate_output r.stdout STDOUT_BUDGET = some so)
    (hse : truncate_output r.stderr STDERR_BUDGET = some se) :
    execute os ex cmd = ⟨[cmd], some (Except.ok ⟨so, se, r.code.getD (-1)⟩)⟩ := by
  simp [execute, hb, hos, hso, hse]

/-- A subprocess environment that answers `"ok"`, exit status 0. -/
def osEcho : Subprocess := fun _ _ => Except.ok ⟨strBytes "ok", [], some 0⟩

/-- C10, witness: `"sudo ls"` warns (`"sudo"`), is not blocked, and runs. -/
theorem C10_warned_commands_execute_witness :
    execute osEcho BashExecutor.new (strBytes "sudo ls") =
      ⟨[strBytes "sudo ls"], some (Except.ok ⟨strBytes "ok", [], (0 : Int)⟩)⟩ :=
  C10_warned_commands_execute osEcho BashExecutor.new (strBytes "sudo ls")
    (strBytes "Внимание: команда использует " ++ strBytes "sudo")
    (strBytes "ok") [] ⟨strBytes "ok", [], some 0⟩
    (by decide) (by decide) rfl (by decide) (by decide)

end Astra
